import Mathlib

/-!
Verification development for the mtg-agent collection engine.

Shallow embedding of the ownership/valuation reconciliation engine:
`src/models/card_collection.py`, `src/models/commander_deck.py`,
`src/models/standard_deck.py`, `src/tools/collection_tool.py` and
`src/tools/price_lookup.py`.

Modelling conventions:
* Python `Decimal` and `float` amounts are modelled as exact rationals `ℚ`;
  `int` quantities are modelled as `ℕ` (the data model's invariant is
  `quantity ≥ 1`, and dict values for needed quantities are non-negative).
* Python dicts are modelled as insertion-ordered association lists
  (`List (String × _)`), built exactly the way the code builds them
  (`if key not in d: d[key] = 0; d[key] += v`).
* A Python function that can raise is modelled with `Option`/`Except`
  (`none`/`.error` exactly on the raising inputs).
* The HTTP transport of the Scryfall client is external; the price-selection
  logic and the request issued per card are embedded, with the external
  service abstracted as an oracle argument.
-/

namespace MtgAgent

/-- Rarity enum from `src/models/card_collection.py`. -/
inductive Rarity where
  | COMMON | UNCOMMON | RARE | MYTHIC | SPECIAL | BONUS
deriving DecidableEq

/-- Condition enum from `src/models/card_collection.py`. -/
inductive Condition where
  | EXCELLENT | MINT | GOOD | LIGHT_PLAYED | NEAR_MINT
  | LIGHTLY_PLAYED | MODERATELY_PLAYED | HEAVILY_PLAYED | DAMAGED
deriving DecidableEq

/-- `CardEntry` from `src/models/card_collection.py`: one inventory row.
`purchase_price` is an exact decimal (`ℚ`). -/
structure CardEntry where
  binder_name : String := ""
  binder_type : String := ""
  name : String
  set_code : String := ""
  set_name : String := ""
  collector_number : String := ""
  foil : Bool := false
  rarity : Rarity := .COMMON
  quantity : Nat := 1
  manabox_id : Nat := 0
  scryfall_id : String := ""
  purchase_price : ℚ := 0
  misprint : Bool := false
  altered : Bool := false
  condition : Condition := .NEAR_MINT
  language : String := "en"
  purchase_price_currency : String := "USD"
deriving DecidableEq

/-- Python `str.lower()`, modelled character-wise. -/
def strLower (s : String) : String := ⟨s.data.map Char.toLower⟩

/-- Python dict update `d[k] = d.get(k, 0) + v` on an insertion-ordered
association list (`if k not in d: d[k] = 0` then `d[k] += v`). -/
def bump {α : Type} [Add α] : List (String × α) → String → α → List (String × α)
  | [], k, v => [(k, v)]
  | (k0, v0) :: rest, k, v =>
      if k0 = k then (k0, v0 + v) :: rest else (k0, v0) :: bump rest k v

/-- Python dict read `d.get(k, 0)`. -/
def lookupD {α : Type} [Zero α] : List (String × α) → String → α
  | [], _ => 0
  | (k0, v0) :: rest, k => if k0 = k then v0 else lookupD rest k

/-- The dict-building loop `for c in cards: d[key c] += val c` starting from
an empty dict. -/
def dictFold {α : Type} [Add α] (key : CardEntry → String) (val : CardEntry → α)
    (cards : List CardEntry) : List (String × α) :=
  cards.foldl (fun m c => bump m (key c) (val c)) []

/-- `CardCollection.total_cards`: total number of physical cards. -/
def total_cards (cards : List CardEntry) : Nat :=
  (cards.map (·.quantity)).sum

/-- `CardCollection.total_value`: dict currency → Σ purchase_price * quantity,
built row by row exactly as the Python property does. -/
def total_value (cards : List CardEntry) : List (String × ℚ) :=
  dictFold (·.purchase_price_currency) (fun c => c.purchase_price * (c.quantity : ℚ)) cards

/-- `CardCollection.get_cards_by_name`: case-insensitive name filter. -/
def get_cards_by_name (cards : List CardEntry) (name : String) : List CardEntry :=
  cards.filter (fun c => strLower c.name = strLower name)

/-- The `owned_cards` dict built inside `calculate_deck_ownership`:
keyed by the row's `name` verbatim (case-sensitive). -/
def owned_cards (cards : List CardEntry) : List (String × Nat) :=
  dictFold (·.name) (·.quantity) cards

/-- `CardCollection.calculate_deck_ownership`. The deck list is the dict
name → quantity needed. Returns `none` exactly when the Python code raises
`ZeroDivisionError` (non-empty dict whose quantities sum to 0); otherwise the
unrounded percentage `(Σ min(owned, needed) / Σ needed) * 100`. -/
def calculate_deck_ownership (cards : List CardEntry)
    (deck_cards : List (String × Nat)) : Option ℚ :=
  if deck_cards = [] then
    some 0
  else
    let owned := owned_cards cards
    let total_cards_needed : Nat := (deck_cards.map (·.2)).sum
    let total_cards_owned : Nat :=
      (deck_cards.map (fun p => min (lookupD owned p.1) p.2)).sum
    if total_cards_needed = 0 then none
    else some (((total_cards_owned : ℚ) / (total_cards_needed : ℚ)) * 100)

/-! ### Market price resolver (`src/tools/price_lookup.py`) -/

/-- The `prices` block of a Scryfall card record. A field is `none` when the
JSON field is absent/null/empty (Python falsy); otherwise the exact decimal
value of the price string. -/
structure ScryfallPrices where
  usd : Option ℚ := none
  usd_foil : Option ℚ := none
  eur : Option ℚ := none
  tix : Option ℚ := none
deriving DecidableEq

/-- Price-selection logic of `fetch_scryfall_card` (lines 101-115): foil USD
when the card is foil and that field is populated, else USD, else the MTGO
`tix` price times the fixed 1.0 conversion factor; `none` ("no market price",
not an error) when nothing is populated. The HTTP transport around it is
external. -/
def fetch_scryfall_card (prices : ScryfallPrices) (foil : Bool) : Option ℚ :=
  if foil && prices.usd_foil.isSome then
    prices.usd_foil
  else if prices.usd.isSome then
    prices.usd
  else
    match prices.tix with
    | some tix => some (tix * 1)
    | none => none

/-- The single external request `get_scryfall_price` issues for one card:
by Scryfall ID if present, else by (set code, collector number) if both
present, else by name (scoped by set code). -/
inductive ScryfallRequest where
  | byId (scryfall_id : String) (foil : Bool)
  | bySetNum (set_code collector_number : String) (foil : Bool)
  | byName (name : String) (set_code : String) (foil : Bool)
deriving DecidableEq

/-- Request selection in `get_scryfall_price` (lines 62-71). -/
def scryfall_request (c : CardEntry) : ScryfallRequest :=
  if c.scryfall_id ≠ "" then
    .byId c.scryfall_id c.foil
  else if c.set_code ≠ "" ∧ c.collector_number ≠ "" then
    .bySetNum c.set_code c.collector_number c.foil
  else
    .byName c.name c.set_code c.foil

/-- `get_market_prices_for_cards` (lines 154-170): one `get_scryfall_price`
call per list element, in order, appending the successful results. The
external service is the `oracle`; the second component records every request
issued. -/
def get_market_prices_for_cards (oracle : ScryfallRequest → Option ℚ)
    (cards : List CardEntry) : List ℚ × List ScryfallRequest :=
  cards.foldl
    (fun acc card =>
      let req := scryfall_request card
      match oracle req with
      | some price => (acc.1 ++ [price], acc.2 ++ [req])
      | none => (acc.1, acc.2 ++ [req]))
    ([], [])

/-! ### Rounding (Python `round(x, 2)` on exact values) -/

/-- Round to the nearest integer, ties to the even neighbour — the documented
semantics of Python `round` applied to the exact value of its argument. -/
def rndHalfEven (q : ℚ) : ℤ :=
  if q - ⌊q⌋ < 1 / 2 then ⌊q⌋
  else if 1 / 2 < q - ⌊q⌋ then ⌊q⌋ + 1
  else if ⌊q⌋ % 2 = 0 then ⌊q⌋ else ⌊q⌋ + 1

/-- Python `round(q, 2)` on an exact value. -/
def round2 (q : ℚ) : ℚ :=
  (rndHalfEven (q * 100) : ℚ) / 100

/-! ### Deck models (`src/models/commander_deck.py`, `standard_deck.py`) -/

/-- Card category enum, in declaration order. -/
inductive CardCategory where
  | COMMANDER | CREATURE | ARTIFACT | ENCHANTMENT | PLANESWALKER
  | INSTANT | SORCERY | LAND | OTHER
deriving DecidableEq

/-- The enum's `.value` strings. -/
def categoryValue : CardCategory → String
  | .COMMANDER => "commander"
  | .CREATURE => "creature"
  | .ARTIFACT => "artifact"
  | .ENCHANTMENT => "enchantment"
  | .PLANESWALKER => "planeswalker"
  | .INSTANT => "instant"
  | .SORCERY => "sorcery"
  | .LAND => "land"
  | .OTHER => "other"

/-- The enum in declaration order (Python iterates `CardCategory` this way). -/
def categoryList : List CardCategory :=
  [.COMMANDER, .CREATURE, .ARTIFACT, .ENCHANTMENT, .PLANESWALKER,
   .INSTANT, .SORCERY, .LAND, .OTHER]

/-- `DeckCard` from `src/models/commander_deck.py`. `price` is the Python
`Optional[float]` modelled exactly. -/
structure DeckCard where
  name : String
  category : CardCategory
  quantity : Nat := 1
  owned : Bool := false
  price : Option ℚ := none
  price_currency : Option String := some "USD"
  set_code : Option String := none
  collector_number : Option String := none
  scryfall_id : Option String := none
  foil : Option Bool := some false
deriving DecidableEq

/-- `CommanderDeck` from `src/models/commander_deck.py`. -/
structure CommanderDeck where
  name : String
  description : Option String := none
  commander : DeckCard
  cards : List DeckCard
  ownership_percentage : ℚ := 0
  total_price : Option ℚ := none
  price_currency : Option String := some "USD"
  source : Option String := none
  source_url : Option String := none
deriving DecidableEq

/-- `StandardDeck` from `src/models/standard_deck.py`. -/
structure StandardDeck where
  name : String
  description : Option String := none
  format : String := "standard"
  mainboard : List DeckCard
  sideboard : List DeckCard := []
  ownership_percentage : ℚ := 0
  total_price : Option ℚ := none
  price_currency : Option String := some "USD"
  source : Option String := none
  source_url : Option String := none
  author : Option String := none
deriving DecidableEq

/-! ### Table projection (`to_table_format`) -/

/-- Rendering of a price amount at the presentation boundary (abstracts the
decimal text of Python `f"{card.price}"`). -/
def priceAmountStr (p : ℚ) : String := toString p

/-- Rendering of `f"{card.price_currency}"` (Python prints `None` for an
absent value). -/
def currencyStr : Option String → String
  | some c => c
  | none => "None"

/-- The price cell: `f"{card.price} {card.price_currency}" if card.price else
"N/A"` — Python truthiness, so both `None` and `0.0` yield `"N/A"`. -/
def price_display (price : Option ℚ) (currency : Option String) : String :=
  match price with
  | some p => if p = 0 then "N/A" else priceAmountStr p ++ " " ++ currencyStr currency
  | none => "N/A"

/-- One table row `[name, quantity, owned, price]` (the Python row keeps the
quantity as an integer, so the row is a record, not a list of strings). -/
structure TableRow where
  name : String
  quantity : Nat
  owned : String
  price : String
deriving DecidableEq

/-- The row built for one card (lines 93-102 of `commander_deck.py` and
96-105 of `standard_deck.py`). -/
def card_row (c : DeckCard) : TableRow :=
  { name := c.name
    quantity := c.quantity
    owned := if c.owned then "Yes" else "No"
    price := price_display c.price c.price_currency }

/-- `CommanderDeck.by_category`: commander first in its category, then the
deck cards in order, dropping empty categories. -/
def commander_by_category (d : CommanderDeck) : List (CardCategory × List DeckCard) :=
  (categoryList.map (fun cat =>
      (cat, (if cat = CardCategory.COMMANDER then [d.commander] else []) ++
            d.cards.filter (fun c => c.category = cat)))).filter
    (fun p => !p.2.isEmpty)

/-- The `tables` field of `CommanderDeck.to_table_format`. -/
def commander_to_table (d : CommanderDeck) : List (String × List TableRow) :=
  (commander_by_category d).map (fun p => (categoryValue p.1, p.2.map card_row))

/-- `StandardDeck.by_category` for one section. -/
def standard_by_category (cards : List DeckCard) : List (CardCategory × List DeckCard) :=
  (categoryList.map (fun cat => (cat, cards.filter (fun c => c.category = cat)))).filter
    (fun p => !p.2.isEmpty)

/-- The `tables` field of `StandardDeck.to_table_format`: section → category
table. -/
def standard_to_table (d : StandardDeck) : List (String × List (String × List TableRow)) :=
  [("mainboard",
    (standard_by_category d.mainboard).map (fun p => (categoryValue p.1, p.2.map card_row))),
   ("sideboard",
    (standard_by_category d.sideboard).map (fun p => (categoryValue p.1, p.2.map card_row)))]

/-! ### `create_commander_deck` (`src/tools/collection_tool.py`, lines 206-323) -/

/-- Contiguous-sublist test on character lists (Python `sub in s`). -/
def substrAux (pat : List Char) : List Char → Bool
  | [] => pat.isPrefixOf []
  | c :: t => pat.isPrefixOf (c :: t) || substrAux pat t

/-- Python `pat in s` on strings. -/
def strContains (s pat : String) : Bool :=
  substrAux pat.toList s.toList

/-- Category heuristic of `create_commander_deck` (lines 262-265): a card is
a LAND when its lowered name contains one of the basic-land substrings. -/
def commander_category (card_name : String) : CardCategory :=
  let n := strLower card_name
  if strContains n "land" || strContains n "island" || strContains n "mountain" ||
     strContains n "swamp" || strContains n "forest" || strContains n "plains" then
    CardCategory.LAND
  else
    CardCategory.OTHER

/-- The `DeckCard` built for one deck-list entry (lines 286-297), with the
ownership test of lines 267-283. -/
def commander_deck_card (collection : List CardEntry) (e : String × Nat) : DeckCard :=
  let card_in_collection := get_cards_by_name collection e.1
  let card_ref := card_in_collection.head?
  let owned_quantity := (card_in_collection.map (·.quantity)).sum
  { name := e.1
    category := commander_category e.1
    quantity := e.2
    owned := !card_in_collection.isEmpty && decide (e.2 ≤ owned_quantity)
    price := card_ref.map (·.purchase_price)
    price_currency := some (match card_ref with
      | some c => c.purchase_price_currency
      | none => "USD")
    set_code := card_ref.map (·.set_code)
    collector_number := card_ref.map (·.collector_number)
    scryfall_id := card_ref.map (·.scryfall_id)
    foil := some (match card_ref with | some c => c.foil | none => false) }

/-- The `owned_count` increment for one entry (lines 273-283): quantity when
fully owned, the owned quantity when partially owned, 0 when no row matches. -/
def entry_owned_inc (collection : List CardEntry) (e : String × Nat) : Nat :=
  let card_in_collection := get_cards_by_name collection e.1
  let owned_quantity := (card_in_collection.map (·.quantity)).sum
  if card_in_collection.isEmpty then 0
  else if e.2 ≤ owned_quantity then e.2
  else owned_quantity

/-- The `total_price` increment for one entry (lines 300-301): purchase price
of the first matching row times quantity, when that price is truthy. -/
def entry_price_inc (collection : List CardEntry) (e : String × Nat) : ℚ :=
  match (get_cards_by_name collection e.1).head? with
  | some c => if c.purchase_price ≠ 0 then c.purchase_price * (e.2 : ℚ) else 0
  | none => 0

/-- The per-entry loop of `create_commander_deck` (lines 256-303): skips
entries whose name matches the commander case-insensitively, and accumulates
(deck cards, owned_count, total_price). -/
def commander_loop (collection : List CardEntry) (commander_name : String) :
    List (String × Nat) → List DeckCard × Nat × ℚ
  | [] => ([], 0, 0)
  | e :: rest =>
    let r := commander_loop collection commander_name rest
    if strLower e.1 = strLower commander_name then r
    else (commander_deck_card collection e :: r.1,
          entry_owned_inc collection e + r.2.1,
          entry_price_inc collection e + r.2.2)

/-- The `owned_count` accumulated over the whole deck list: sum of the
per-entry increments over the non-commander entries. -/
def deck_owned_count (collection : List CardEntry) (commander_name : String)
    (deck_list : List (String × Nat)) : Nat :=
  ((deck_list.filter (fun e => decide (strLower e.1 ≠ strLower commander_name))).map
    (entry_owned_inc collection)).sum

/-- `create_commander_deck` from `src/tools/collection_tool.py`. Returns
`.error` exactly when the Python code raises `ValueError` (deck-list
quantities not summing to 99); otherwise the constructed deck. The ownership
denominator is the fixed `total_deck_cards = 100` of line 310. -/
def create_commander_deck (collection : List CardEntry) (deck_name : String)
    (commander_name : String) (deck_list : List (String × Nat)) :
    Except String CommanderDeck :=
  let total := (deck_list.map (·.2)).sum
  if total ≠ 99 then
    .error "Commander deck must have exactly 99 cards (+ commander)."
  else
    let commander_cards := get_cards_by_name collection commander_name
    let commander_owned := !commander_cards.isEmpty
    let commander_card := commander_cards.head?
    let commander : DeckCard :=
      { name := commander_name
        category := .COMMANDER
        owned := commander_owned
        price := commander_card.map (·.purchase_price)
        price_currency := some (match commander_card with
          | some c => c.purchase_price_currency
          | none => "USD")
        set_code := commander_card.map (·.set_code)
        collector_number := commander_card.map (·.collector_number)
        scryfall_id := commander_card.map (·.scryfall_id)
        foil := some (match commander_card with | some c => c.foil | none => false) }
    let r := commander_loop collection commander_name deck_list
    let total_price := r.2.2 + (match commander_card with
      | some c => if c.purchase_price ≠ 0 then c.purchase_price else 0
      | none => 0)
    let ownership_percentage : ℚ :=
      ((r.2.1 : ℚ) + (if commander_owned then 1 else 0)) / 100 * 100
    .ok
      { name := deck_name
        commander := commander
        cards := r.1
        ownership_percentage := round2 ownership_percentage
        total_price := some (round2 total_price)
        price_currency := some "USD" }

/-! ### Concrete fixtures used by counterexamples and witnesses -/

/-- A Lightning Bolt printing with the given quantity. -/
def boltRow (collector : String) (q : Nat) : CardEntry :=
  { name := "Lightning Bolt", set_code := "lea", collector_number := collector,
    quantity := q, purchase_price := 1, purchase_price_currency := "USD" }

/-- Scenario E inventory: two rows named "Lightning Bolt", quantities 2 and 3. -/
def boltInventory : List CardEntry := [boltRow "161" 2, boltRow "162" 3]

/-- A Sol Ring row with quantity 5. -/
def solRingRow : CardEntry :=
  { name := "Sol Ring", set_code := "c21", collector_number := "263",
    quantity := 5, purchase_price := 2, purchase_price_currency := "USD" }

/-- An inventory in which one third of the 3-card example deck is owned. -/
def thirdInventory : List CardEntry :=
  [{ name := "A", quantity := 1 }]

/-- A deck needing three distinct cards, one of which is owned. -/
def thirdDeck : List (String × Nat) := [("A", 1), ("B", 1), ("C", 1)]

/-- A deck card with a known price of 0 (a loader-defaulted purchase price). -/
def zeroPriceCard : DeckCard :=
  { name := "Zero", category := .OTHER, quantity := 1, owned := false,
    price := some 0, price_currency := some "USD" }

/-- A commander deck containing `zeroPriceCard`. -/
def zeroPriceDeck : CommanderDeck :=
  { name := "Z", commander := { name := "Cmdr", category := .COMMANDER },
    cards := [zeroPriceCard] }

/-- A standard deck containing `zeroPriceCard` in the mainboard. -/
def zeroPriceStandardDeck : StandardDeck :=
  { name := "ZS", mainboard := [zeroPriceCard] }

/-- A card identity with a Scryfall ID, duplicated in batch counterexamples. -/
def dupCard : CardEntry :=
  { name := "Sol Ring", set_code := "c21", collector_number := "263",
    scryfall_id := "abc-123", foil := false }

/-- A 99-card deck list that contains the commander (different case). -/
def atraxaDeckList : List (String × Nat) := [("Sol Ring", 98), ("atraxa", 1)]

/-! ### Helper lemmas: association-list dicts -/

theorem lookupD_bump {α : Type} [AddMonoid α] (m : List (String × α)) (k0 k : String) (v : α) :
    lookupD (bump m k0 v) k = lookupD m k + if k0 = k then v else 0 := by
  induction m with
  | nil =>
      by_cases h : k0 = k <;> simp [bump, lookupD, h]
  | cons hd tl ih =>
      obtain ⟨k1, v1⟩ := hd
      by_cases h1 : k1 = k0
      · subst h1
        by_cases h2 : k1 = k <;> simp [bump, lookupD, h2, add_assoc]
      · by_cases h2 : k1 = k
        · subst h2
          simp [bump, lookupD, h1, Ne.symm h1]
        · simp [bump, lookupD, h1, h2, ih]

theorem lookupD_foldl_bump {α : Type} [AddMonoid α] (key : CardEntry → String)
    (val : CardEntry → α) (cards : List CardEntry) (m : List (String × α)) (k : String) :
    lookupD (cards.foldl (fun m c => bump m (key c) (val c)) m) k =
      lookupD m k + ((cards.filter (fun c => key c = k)).map val).sum := by
  induction cards generalizing m with
  | nil => simp
  | cons c rest ih =>
      by_cases h : key c = k
      · simp [List.foldl_cons, ih, lookupD_bump, h, add_assoc]
      · simp [List.foldl_cons, ih, lookupD_bump, h]

theorem lookupD_dictFold {α : Type} [AddMonoid α] (key : CardEntry → String)
    (val : CardEntry → α) (cards : List CardEntry) (k : String) :
    lookupD (dictFold key val cards) k = ((cards.filter (fun c => key c = k)).map val).sum := by
  have h := lookupD_foldl_bump key val cards [] k
  simpa [dictFold, lookupD] using h

theorem mem_keys_bump {α : Type} [Add α] (m : List (String × α)) (k0 k : String) (v : α) :
    k ∈ (bump m k0 v).map Prod.fst ↔ k ∈ m.map Prod.fst ∨ k = k0 := by
  induction m with
  | nil => simp [bump, eq_comm]
  | cons hd tl ih =>
      obtain ⟨k1, v1⟩ := hd
      by_cases h1 : k1 = k0
      · subst h1
        by_cases h2 : k = k1 <;> simp [bump, h2]
      · simp [bump, h1, ih, or_assoc]

theorem mem_keys_foldl_bump {α : Type} [Add α] (key : CardEntry → String)
    (val : CardEntry → α) (cards : List CardEntry) (m : List (String × α)) (k : String) :
    k ∈ (cards.foldl (fun m c => bump m (key c) (val c)) m).map Prod.fst ↔
      k ∈ m.map Prod.fst ∨ ∃ c ∈ cards, key c = k := by
  induction cards generalizing m with
  | nil => simp
  | cons c rest ih =>
      simp only [List.foldl_cons, ih, mem_keys_bump, List.mem_cons]
      constructor
      · rintro (⟨h | h⟩ | ⟨c0, hc0, hk⟩)
        · exact Or.inl h
        · exact Or.inr ⟨c, Or.inl rfl, h.symm⟩
        · exact Or.inr ⟨c0, Or.inr hc0, hk⟩
      · rintro (h | ⟨c0, rfl | hc0, hk⟩)
        · exact Or.inl (Or.inl h)
        · exact Or.inl (Or.inr hk.symm)
        · exact Or.inr ⟨c0, hc0, hk⟩

theorem mem_keys_dictFold {α : Type} [Add α] (key : CardEntry → String)
    (val : CardEntry → α) (cards : List CardEntry) (k : String) :
    k ∈ (dictFold key val cards).map Prod.fst ↔ ∃ c ∈ cards, key c = k := by
  have h := mem_keys_foldl_bump key val cards [] k
  simpa [dictFold] using h

/-! ### Helper lemmas: sums -/

theorem sum_map_filter_add (p : String × Nat → Bool) (l : List (String × Nat)) :
    ((l.filter p).map (·.2)).sum + ((l.filter (fun e => !p e)).map (·.2)).sum =
      (l.map (·.2)).sum := by
  induction l with
  | nil => simp
  | cons a t ih =>
      cases hp : p a <;> simp [hp, ← ih] <;> omega

/-! ### Helper lemmas: rounding -/

theorem floor_add_half (n : ℤ) : ⌊(n : ℚ) + 1 / 2⌋ = n := by
  rw [add_comm, Int.floor_add_int]
  norm_num

theorem rndHalfEven_add_half (n : ℤ) :
    rndHalfEven ((n : ℚ) + 1 / 2) = if n % 2 = 0 then n else n + 1 := by
  have hfr : (n : ℚ) + 1 / 2 - ⌊(n : ℚ) + 1 / 2⌋ = 1 / 2 := by
    rw [floor_add_half]; ring
  unfold rndHalfEven
  rw [hfr, floor_add_half]
  norm_num

theorem rndHalfEven_intCast (n : ℤ) : rndHalfEven (n : ℚ) = n := by
  unfold rndHalfEven
  simp

/-! ### Helper lemmas: strings -/

theorem append_space_ne_na (a b : String) : a ++ " " ++ b ≠ "N/A" := by
  intro h
  have hd := congrArg String.data h
  simp only [String.data_append] at hd
  have hmem : ' ' ∈ a.data ++ " ".data ++ b.data := by simp [String.data]
  rw [hd] at hmem
  have : ¬ (' ' ∈ ("N/A").data) := by decide
  exact this hmem

/-! ### Helper lemmas: the commander-deck construction loop -/

theorem commander_loop_eq (col : List CardEntry) (cn : String) (dl : List (String × Nat)) :
    commander_loop col cn dl =
      ((dl.filter (fun e => decide (strLower e.1 ≠ strLower cn))).map (commander_deck_card col),
       deck_owned_count col cn dl,
       ((dl.filter (fun e => decide (strLower e.1 ≠ strLower cn))).map (entry_price_inc col)).sum) := by
  induction dl with
  | nil => simp [commander_loop, deck_owned_count]
  | cons e rest ih =>
      by_cases h : strLower e.1 = strLower cn <;>
        simp [commander_loop, h, ih, deck_owned_count]

/-! ### Helper lemmas: ownership percentage bounds -/

theorem calculate_deck_ownership_bounds (cards : List CardEntry)
    (deck : List (String × Nat)) (q : ℚ)
    (h : calculate_deck_ownership cards deck = some q) :
    0 ≤ q ∧ q ≤ 100 ∧
      (q = 0 ↔ (deck.map (fun p => min (lookupD (owned_cards cards) p.1) p.2)).sum = 0) := by
  simp only [calculate_deck_ownership] at h
  split_ifs at h with h1 h2
  · injection h with h
    subst h1
    simp [← h]
  · injection h with h
    set o : Nat := (deck.map (fun p => min (lookupD (owned_cards cards) p.1) p.2)).sum with ho
    set t : Nat := (deck.map (·.2)).sum with ht
    have hot : o ≤ t := by
      rw [ho, ht]
      exact List.sum_le_sum (fun p _ => min_le_right _ _)
    have htpos : (0 : ℚ) < (t : ℚ) := by
      have h0 : 0 < t := Nat.pos_of_ne_zero h2
      exact_mod_cast h0
    subst h
    refine ⟨by positivity, ?_, ?_⟩
    · have hdiv : (o : ℚ) / (t : ℚ) ≤ 1 := by
        rw [div_le_one htpos]
        exact_mod_cast hot
      have h100 := mul_le_mul_of_nonneg_right hdiv (by norm_num : (0 : ℚ) ≤ 100)
      simpa using h100
    · rw [mul_eq_zero, div_eq_zero_iff]
      constructor
      · rintro ((h0 | h0) | h0)
        · exact_mod_cast h0
        · exact absurd h0 (ne_of_gt htpos)
        · norm_num at h0
      · intro h0
        exact Or.inl (Or.inl (by exact_mod_cast h0))

/-! ### Claim C1 -/

/-- Claim C1 counterexample: the claim "returns a percentage in [0, 100] ...
and it returns 0 exactly when the list is empty or every quantity_needed is 0,
never raising an exception" is false on the code. With an empty inventory and
the one-card list `{"A": 1}` (non-empty, quantity 1 ≠ 0) the result is 0, and
with `{"A": 0}` (all quantities 0) the code raises `ZeroDivisionError`
(modelled `none`) instead of returning 0. -/
theorem c1_counterexample :
    calculate_deck_ownership [] [("A", 1)] = some 0 ∧
    ¬(([("A", (1 : Nat))] : List (String × Nat)) = [] ∨
        ∀ e ∈ ([("A", (1 : Nat))] : List (String × Nat)), e.2 = 0) ∧
    calculate_deck_ownership [] [("A", 0)] = none := by
  refine ⟨?_, by simp, by simp [calculate_deck_ownership]⟩
  simp [calculate_deck_ownership, owned_cards, dictFold, lookupD]

/-- Claim C1 (amended): for every inventory and deck list, the result is
`some p` with `0 ≤ p ≤ 100` whenever the quantities do not sum to 0 (and
`some 0` for the empty list); `p = 0` exactly when the capped owned total is
0; the code raises `ZeroDivisionError` (modelled `none`) exactly on a
non-empty list whose quantities sum to 0. -/
theorem c1_ownership_range (cards : List CardEntry) (deck : List (String × Nat)) :
    match calculate_deck_ownership cards deck with
    | none => deck ≠ [] ∧ (deck.map (·.2)).sum = 0
    | some p => 0 ≤ p ∧ p ≤ 100 ∧
        (p = 0 ↔ (deck.map (fun e => min (lookupD (owned_cards cards) e.1) e.2)).sum = 0) := by
  rcases hres : calculate_deck_ownership cards deck with _ | p
  · simp only [calculate_deck_ownership] at hres
    split_ifs at hres with h1 h2
    exact ⟨h1, h2⟩
  · exact calculate_deck_ownership_bounds cards deck p hres

/-! ### Claim C2 -/

/-- Claim C2: `quantity_owned` for a requested name is the sum of the
quantities of the inventory rows bearing exactly that name, each requested
card contributes `min(quantity_owned, quantity_needed)`, and when every
requested card is over-owned (`quantity_owned > quantity_needed`) each
contributes exactly `quantity_needed`; the percentage can never exceed 100. -/
theorem c2_capped_contribution (cards : List CardEntry) (deck : List (String × Nat))
    (hover : ∀ e ∈ deck, e.2 < lookupD (owned_cards cards) e.1) :
    (∀ name, lookupD (owned_cards cards) name =
        ((cards.filter (fun c => c.name = name)).map (·.quantity)).sum) ∧
    (∀ e ∈ deck, min (lookupD (owned_cards cards) e.1) e.2 = e.2) ∧
    (deck.map (fun e => min (lookupD (owned_cards cards) e.1) e.2)).sum =
      (deck.map (·.2)).sum ∧
    ∀ q, calculate_deck_ownership cards deck = some q → q ≤ 100 := by
  have hmin : ∀ e ∈ deck, min (lookupD (owned_cards cards) e.1) e.2 = e.2 :=
    fun e he => min_eq_right (le_of_lt (hover e he))
  refine ⟨fun name => lookupD_dictFold _ _ cards name, hmin, ?_, ?_⟩
  · rw [List.map_congr_left hmin]
  · intro q hq
    exact (calculate_deck_ownership_bounds cards deck q hq).2.1

/-- Claim C2 witness: the capping law at the concrete inventory
`[solRingRow]` (5 owned) against the deck `{"Sol Ring": 2}`. -/
theorem c2_witness :
    (∀ name, lookupD (owned_cards [solRingRow]) name =
        (([solRingRow].filter (fun c => c.name = name)).map (·.quantity)).sum) ∧
    (∀ e ∈ [("Sol Ring", (2 : Nat))],
        min (lookupD (owned_cards [solRingRow]) e.1) e.2 = e.2) ∧
    ([("Sol Ring", (2 : Nat))].map
        (fun e => min (lookupD (owned_cards [solRingRow]) e.1) e.2)).sum =
      ([("Sol Ring", (2 : Nat))].map (·.2)).sum ∧
    (∀ q, calculate_deck_ownership [solRingRow] [("Sol Ring", 2)] = some q → q ≤ 100) :=
  c2_capped_contribution [solRingRow] [("Sol Ring", 2)] (by decide)

/-! ### Claim C3 -/

/-- Claim C3 counterexample: Scenario E fails for `calculate_deck_ownership`.
The two inventory rows are both named "Lightning Bolt" (total quantity 5) and
match the request "lightning bolt" up to case, yet the reconciliation's owned
quantity for "lightning bolt" is 0, not 5, and the resulting percentage for
the deck `{"lightning bolt": 4}` is 0, not 100: the `owned_cards` dict is
keyed by the row name verbatim, so the match is case-sensitive. -/
theorem c3_counterexample :
    strLower "lightning bolt" = strLower "Lightning Bolt" ∧
    "lightning bolt" ≠ "Lightning Bolt" ∧
    (∀ c ∈ boltInventory, strLower c.name = strLower "lightning bolt") ∧
    (boltInventory.map (·.quantity)).sum = 5 ∧
    lookupD (owned_cards boltInventory) "lightning bolt" = 0 ∧
    calculate_deck_ownership boltInventory [("lightning bolt", 4)] = some 0 := by
  refine ⟨by decide, by decide, by decide, by decide, by decide, ?_⟩
  simp [calculate_deck_ownership, owned_cards, boltInventory, boltRow, dictFold, bump, lookupD]

/-- Claim C3 (amended): `get_cards_by_name` does match case-insensitively and
Scenario E holds for it (request "lightning bolt" finds both "Lightning Bolt"
rows, aggregate quantity 5), but `calculate_deck_ownership`'s owned quantity
for a requested name sums exactly the rows whose name equals it verbatim
(case-sensitively). -/
theorem c3_name_matching (cards : List CardEntry) (name : String) :
    (∀ c ∈ get_cards_by_name cards name, strLower c.name = strLower name) ∧
    lookupD (owned_cards cards) name =
      ((cards.filter (fun c => c.name = name)).map (·.quantity)).sum ∧
    ((get_cards_by_name boltInventory "lightning bolt").map (·.quantity)).sum = 5 := by
  refine ⟨?_, lookupD_dictFold _ _ cards name, by decide⟩
  intro c hc
  exact of_decide_eq_true (List.mem_filter.mp hc).2

/-! ### Claim C4 -/

/-- Claim C4 counterexample: the percentage returned by the reconciliation
(`calculate_deck_ownership`) is not rounded to 2 decimal places at all. With
one of three needed cards owned it returns exactly 100/3, which is no integer
number of hundredths. -/
theorem c4_counterexample :
    calculate_deck_ownership thirdInventory thirdDeck = some (100 / 3) ∧
    ¬∃ n : ℤ, (100 : ℚ) / 3 = (n : ℚ) / 100 := by
  constructor
  · simp [calculate_deck_ownership, thirdInventory, thirdDeck, owned_cards,
      dictFold, bump, lookupD]
    norm_num
  · rintro ⟨n, hn⟩
    have hn2 : (10000 : ℚ) = (n : ℚ) * 3 := by
      field_simp at hn
      linarith
    have hn3 : (10000 : ℤ) = n * 3 := by exact_mod_cast hn2
    omega

/-- Claim C4 (amended): `calculate_deck_ownership` returns the raw unrounded
quotient; the 2-decimal rounding happens in the deck constructors
(`round(x, 2)`), whose semantics on exact values is round-half-to-even: a
value exactly on a `.xx5` boundary goes to the even-final-digit neighbour
(33.335 → 33.34 and 33.325 → 33.32, never "always up"), and the stored
commander-deck percentage is exactly `round2` of the raw percentage.
Determinism holds by construction (the model is a pure function). -/
theorem c4_round_half_even (collection : List CardEntry)
    (deck_name commander_name : String) (deck_list : List (String × Nat)) :
    (∀ n : ℤ, round2 ((n : ℚ) / 100 + 1 / 200) =
        ((if n % 2 = 0 then n else n + 1 : ℤ) : ℚ) / 100) ∧
    round2 (33335 / 1000) = 3334 / 100 ∧
    round2 (33325 / 1000) = 3332 / 100 ∧
    (match create_commander_deck collection deck_name commander_name deck_list with
      | .ok d => d.ownership_percentage =
          round2 (((deck_owned_count collection commander_name deck_list : ℚ) +
            (if (get_cards_by_name collection commander_name).isEmpty then 0 else 1)) /
              100 * 100)
      | .error _ => True) := by
  refine ⟨?_, ?_, ?_, ?_⟩
  · intro n
    have h : ((n : ℚ) / 100 + 1 / 200) * 100 = (n : ℚ) + 1 / 2 := by ring
    rw [round2, h, rndHalfEven_add_half]
  · have h : (33335 / 1000 : ℚ) * 100 = ((3333 : ℤ) : ℚ) + 1 / 2 := by norm_num
    rw [round2, h, rndHalfEven_add_half]
    norm_num
  · have h : (33325 / 1000 : ℚ) * 100 = ((3332 : ℤ) : ℚ) + 1 / 2 := by norm_num
    rw [round2, h, rndHalfEven_add_half]
    norm_num
  · rcases hres : create_commander_deck collection deck_name commander_name deck_list
      with msg | d
    · trivial
    · simp only [create_commander_deck] at hres
      by_cases h99 : (deck_list.map (·.2)).sum ≠ 99
      · rw [if_pos h99] at hres
        exact absurd hres (by simp)
      · rw [if_neg h99] at hres
        injection hres with hres
        subst hres
        simp only [commander_loop_eq]
        rcases hcm : (get_cards_by_name collection commander_name).isEmpty <;>
          simp [hcm]

/-! ### Claim C5 -/

/-- Claim C5: price selection in `fetch_scryfall_card` — foil-specific USD
price when the card is foil and that field exists, else the non-foil USD
price, else the `tix` price times the fixed multiplier; "no market price"
(`none`, not an error) exactly when no applicable field is populated.
Scenario C: `usd=None, usd_foil="12.50", foil=True` resolves to 12.50, the
same record with `foil=False` (and no `tix`) resolves to no market price. -/
theorem c5_price_selection (p : ScryfallPrices) (foil : Bool) :
    (fetch_scryfall_card p foil = none ↔
      ((foil = false ∨ p.usd_foil = none) ∧ p.usd = none ∧ p.tix = none)) ∧
    (∀ v, fetch_scryfall_card { p with usd_foil := some v } true = some v) ∧
    (fetch_scryfall_card { p with usd_foil := none } foil =
      (if p.usd.isSome then p.usd else p.tix.map (· * 1))) ∧
    fetch_scryfall_card { usd := none, usd_foil := some (25 / 2) } true = some (25 / 2) ∧
    fetch_scryfall_card { usd := none, usd_foil := some (25 / 2) } false = none := by
  obtain ⟨usd, usd_foil, eur, tix⟩ := p
  refine ⟨?_, ?_, ?_, by simp [fetch_scryfall_card], by simp [fetch_scryfall_card]⟩
  · cases foil <;> cases usd_foil <;> cases usd <;> cases tix <;>
      simp [fetch_scryfall_card]
  · intro v
    simp [fetch_scryfall_card]
  · cases foil <;> cases usd <;> cases tix <;> simp [fetch_scryfall_card]

/-! ### Claim C6 -/

/-- Claim C6 counterexample: a batch containing the same identity twice
issues two external lookups for that identity, not one —
`get_market_prices_for_cards` performs no deduplication. -/
theorem c6_counterexample :
    (get_market_prices_for_cards (fun _ => none) [dupCard, dupCard]).2.count
        (scryfall_request dupCard) = 2 ∧ (2 : Nat) ≠ 1 :=
  ⟨by decide, by decide⟩

/-- Helper: the request trace of the batch loop, for any starting
accumulator. -/
theorem get_market_prices_calls_aux (oracle : ScryfallRequest → Option ℚ)
    (cards : List CardEntry) (acc : List ℚ × List ScryfallRequest) :
    (cards.foldl
      (fun acc card =>
        let req := scryfall_request card
        match oracle req with
        | some price => (acc.1 ++ [price], acc.2 ++ [req])
        | none => (acc.1, acc.2 ++ [req]))
      acc).2 = acc.2 ++ cards.map scryfall_request := by
  induction cards generalizing acc with
  | nil => simp
  | cons c rest ih =>
      cases horacle : oracle (scryfall_request c) <;>
        simp [horacle, ih]

/-- Claim C6 (amended): the batch resolver issues exactly one external lookup
per input list element, in input order, with no deduplication — so identities
occurring k times in a batch receive k external calls (k, not 1). -/
theorem c6_one_call_per_element (oracle : ScryfallRequest → Option ℚ)
    (cards : List CardEntry) :
    (get_market_prices_for_cards oracle cards).2 = cards.map scryfall_request := by
  have h := get_market_prices_calls_aux oracle cards ([], [])
  simpa [get_market_prices_for_cards] using h

/-! ### Claim C7 -/

/-- Claim C7: `create_commander_deck` raises the validation error (modelled
`.error`) exactly when the deck-list slot quantities do not sum to 99, and
produces no partial report in that case (the `Except` carries either the
error or the full deck, never both); for a list summing to 99 the
construction succeeds. -/
theorem c7_deck_size_validation (collection : List CardEntry)
    (deck_name commander_name : String) (deck_list : List (String × Nat)) :
    ((∃ msg, create_commander_deck collection deck_name commander_name deck_list =
        .error msg) ↔ (deck_list.map (·.2)).sum ≠ 99) ∧
    ((∃ d, create_commander_deck collection deck_name commander_name deck_list =
        .ok d) ↔ (deck_list.map (·.2)).sum = 99) := by
  by_cases h99 : (deck_list.map (·.2)).sum ≠ 99
  · constructor
    · simp only [create_commander_deck, if_pos h99]
      simp [h99]
    · simp only [create_commander_deck, if_pos h99]
      simp [h99]
  · constructor
    · simp only [create_commander_deck, if_neg h99]
      simp [h99]
    · simp only [create_commander_deck, if_neg h99]
      simp only [not_not] at h99
      simp [h99]

/-! ### Claim C8 -/

/-- Claim C8: for every inventory, `total_value` assigns to each currency the
exact decimal sum of `purchase_price * quantity` over exactly the rows in
that currency (rows in other currencies never contribute: the sum ranges over
the filtered rows only); a currency key is present exactly when some row uses
it, and the mapping is empty for the empty inventory. -/
theorem c8_total_value (cards : List CardEntry) (currency : String) :
    lookupD (total_value cards) currency =
      ((cards.filter (fun c => c.purchase_price_currency = currency)).map
        (fun c => c.purchase_price * (c.quantity : ℚ))).sum ∧
    (currency ∈ (total_value cards).map Prod.fst ↔
      ∃ c ∈ cards, c.purchase_price_currency = currency) ∧
    total_value ([] : List CardEntry) = [] :=
  ⟨lookupD_dictFold _ _ cards currency, mem_keys_dictFold _ _ cards currency, rfl⟩

/-! ### Claim C9 -/

/-- Claim C9 counterexample: a deck card with a known price of 0 (present,
not absent — e.g. a loader-defaulted purchase price) is rendered as the
literal "N/A" in the projected table, because the code tests Python
truthiness (`if card.price`), not presence. So "N/A" does not appear exactly
when the price is absent. -/
theorem c9_counterexample :
    ("other", [({ name := "Zero", quantity := 1, owned := "No", price := "N/A" } :
        TableRow)]) ∈ commander_to_table zeroPriceDeck ∧
    zeroPriceCard.price = some 0 ∧ zeroPriceCard.price ≠ none := by
  refine ⟨?_, rfl, by simp [zeroPriceCard]⟩
  simp [commander_to_table, commander_by_category, zeroPriceDeck, zeroPriceCard,
    categoryList, categoryValue, card_row, price_display]

/-- Helper: every row of a section table of `standard_to_table` is the row of
one of the section's cards. -/
theorem mem_standard_section_tables (cards : List DeckCard) (catName : String)
    (rows : List TableRow)
    (hmem : (catName, rows) ∈ (standard_by_category cards).map
      (fun p => (categoryValue p.1, p.2.map card_row)))
    (r : TableRow) (hr : r ∈ rows) : ∃ c ∈ cards, r = card_row c := by
  obtain ⟨p, hp, heq⟩ := List.mem_map.mp hmem
  obtain ⟨-, hrows⟩ := Prod.mk.injEq _ _ _ _ ▸ heq
  subst hrows
  obtain ⟨c, hc, rfl⟩ := List.mem_map.mp hr
  obtain ⟨hpmem, -⟩ := List.mem_filter.mp hp
  obtain ⟨cat, -, hpeq⟩ := List.mem_map.mp hpmem
  subst hpeq
  exact ⟨c, (List.mem_filter.mp hc).1, rfl⟩

/-- Claim C9 (amended): the price cell of a projected table row is the
literal "N/A" exactly when the card's price is absent or equal to 0 (Python
truthiness of `card.price`), and otherwise it is the string
`"<amount> <currency>"`; every row of either projection (commander or
standard deck) is the row of one of the deck's cards. -/
theorem c9_price_cell (d : CommanderDeck) (sd : StandardDeck)
    (pr : Option ℚ) (cur : Option String) :
    (price_display pr cur = "N/A" ↔ (pr = none ∨ pr = some 0)) ∧
    (∀ p, pr = some p → p ≠ 0 →
        price_display pr cur = priceAmountStr p ++ " " ++ currencyStr cur) ∧
    (∀ catName rows, (catName, rows) ∈ commander_to_table d →
        ∀ r ∈ rows, ∃ c, (c = d.commander ∨ c ∈ d.cards) ∧ r = card_row c) ∧
    (∀ sec cattabs, (sec, cattabs) ∈ standard_to_table sd →
        ∀ catName rows, (catName, rows) ∈ cattabs →
          ∀ r ∈ rows, ∃ c, (c ∈ sd.mainboard ∨ c ∈ sd.sideboard) ∧ r = card_row c) := by
  refine ⟨?_, ?_, ?_, ?_⟩
  · rcases pr with _ | p
    · simp [price_display]
    · by_cases hp : p = 0
      · simp [price_display, hp]
      · simp only [price_display, if_neg hp]
        constructor
        · intro h
          exact absurd h (append_space_ne_na _ _)
        · rintro (h | h)
          · exact absurd h (by simp)
          · exact absurd (Option.some.inj h) hp
  · rintro p rfl hp
    simp [price_display, hp]
  · intro catName rows hmem r hr
    obtain ⟨p, hp, heq⟩ := List.mem_map.mp hmem
    obtain ⟨-, hrows⟩ := Prod.mk.injEq _ _ _ _ ▸ heq
    subst hrows
    obtain ⟨c, hc, rfl⟩ := List.mem_map.mp hr
    obtain ⟨hpmem, -⟩ := List.mem_filter.mp hp
    obtain ⟨cat, -, hpeq⟩ := List.mem_map.mp hpmem
    subst hpeq
    rcases List.mem_append.mp hc with hleft | hright
    · by_cases hcat : cat = CardCategory.COMMANDER
      · rw [if_pos hcat] at hleft
        simp only [List.mem_singleton] at hleft
        exact ⟨c, Or.inl hleft, rfl⟩
      · rw [if_neg hcat] at hleft
        exact absurd hleft (List.not_mem_nil c)
    · exact ⟨c, Or.inr (List.mem_filter.mp hright).1, rfl⟩
  · intro sec cattabs hmem catName rows hrows r hr
    simp only [standard_to_table, List.mem_cons, List.not_mem_nil, or_false,
      Prod.mk.injEq, List.mem_singleton] at hmem
    rcases hmem with ⟨-, rfl⟩ | ⟨-, rfl⟩
    · obtain ⟨c, hc, hrc⟩ := mem_standard_section_tables sd.mainboard catName rows hrows r hr
      exact ⟨c, Or.inl hc, hrc⟩
    · obtain ⟨c, hc, hrc⟩ := mem_standard_section_tables sd.sideboard catName rows hrows r hr
      exact ⟨c, Or.inr hc, hrc⟩

/-- Claim C9 witness: the amended theorem applied to the concrete zero-price
deck — the "Zero" row of the "other" table comes from the deck card
`zeroPriceCard`, and the price-cell law instantiated at a present price. -/
theorem c9_witness :
    (∃ c, (c = zeroPriceDeck.commander ∨ c ∈ zeroPriceDeck.cards) ∧
      ({ name := "Zero", quantity := 1, owned := "No", price := "N/A" } : TableRow) =
        card_row c) ∧
    (price_display (some 0) (some "USD") = "N/A" ↔
      ((some 0 : Option ℚ) = none ∨ (some 0 : Option ℚ) = some 0)) := by
  have h := c9_price_cell zeroPriceDeck zeroPriceStandardDeck (some 0) (some "USD")
  refine ⟨?_, h.1⟩
  refine h.2.2.1 "other"
    [({ name := "Zero", quantity := 1, owned := "No", price := "N/A" } : TableRow)] ?_
    ({ name := "Zero", quantity := 1, owned := "No", price := "N/A" } : TableRow)
    (by simp)
  simp [commander_to_table, commander_by_category, zeroPriceDeck, zeroPriceCard,
    categoryList, categoryValue, card_row, price_display]

/-! ### Claim C10 -/

/-- Claim C10: when the deck list sums to 99 and contains an entry whose name
matches the commander case-insensitively (with positive quantity), the
construction succeeds (that entry's quantity counted toward the 99-card
validation), the resulting deck's card list consists exactly of the
non-matching entries (the matching entries are excluded), its quantities sum
to 99 minus the matching quantities — hence strictly fewer than 99
non-commander cards — while the ownership percentage keeps the fixed
denominator 100 of the code. -/
theorem c10_commander_in_deck_list (collection : List CardEntry)
    (deck_name commander_name : String) (deck_list : List (String × Nat))
    (htotal : (deck_list.map (·.2)).sum = 99)
    (e : String × Nat) (he : e ∈ deck_list)
    (hmatch : strLower e.1 = strLower commander_name) (hq : 1 ≤ e.2) :
    ∃ d, create_commander_deck collection deck_name commander_name deck_list = .ok d ∧
      d.cards = (deck_list.filter
          (fun e2 => decide (strLower e2.1 ≠ strLower commander_name))).map
        (commander_deck_card collection) ∧
      (d.cards.map (·.quantity)).sum =
        99 - ((deck_list.filter
            (fun e2 => decide (strLower e2.1 = strLower commander_name))).map (·.2)).sum ∧
      (d.cards.map (·.quantity)).sum < 99 ∧
      d.ownership_percentage =
        round2 (((deck_owned_count collection commander_name deck_list : ℚ) +
          (if (get_cards_by_name collection commander_name).isEmpty then 0 else 1)) /
            100 * 100) := by
  have hne : ¬ (deck_list.map (·.2)).sum ≠ 99 := by simp [htotal]
  have hloop := commander_loop_eq collection commander_name deck_list
  have hcards : (commander_loop collection commander_name deck_list).1 =
      (deck_list.filter
        (fun e2 => decide (strLower e2.1 ≠ strLower commander_name))).map
      (commander_deck_card collection) := by
    rw [hloop]
  have hqcard : ∀ e2 : String × Nat,
      (commander_deck_card collection e2).quantity = e2.2 := fun _ => rfl
  have hsplit := sum_map_filter_add
    (fun e2 => decide (strLower e2.1 = strLower commander_name)) deck_list
  have hfneg : deck_list.filter
      (fun e2 => !(decide (strLower e2.1 = strLower commander_name))) =
      deck_list.filter (fun e2 => decide (strLower e2.1 ≠ strLower commander_name)) := by
    simp
  have hsum : (((commander_loop collection commander_name deck_list).1.map
      (·.quantity)).sum) =
      99 - ((deck_list.filter
        (fun e2 => decide (strLower e2.1 = strLower commander_name))).map (·.2)).sum := by
    rw [hcards, List.map_map]
    have hcomp : ((·.quantity) ∘ commander_deck_card collection) =
        fun e2 : String × Nat => e2.2 := by
      funext e2
      exact hqcard e2
    rw [hcomp, ← hfneg]
    omega
  have hmatched : 1 ≤ ((deck_list.filter
      (fun e2 => decide (strLower e2.1 = strLower commander_name))).map (·.2)).sum := by
    have hmem : e.2 ∈ (deck_list.filter
        (fun e2 => decide (strLower e2.1 = strLower commander_name))).map (·.2) :=
      List.mem_map_of_mem _ (List.mem_filter.mpr ⟨he, by simp [hmatch]⟩)
    calc 1 ≤ e.2 := hq
    _ ≤ _ := List.single_le_sum (fun x _ => Nat.zero_le x) _ hmem
  have hlt : (((commander_loop collection commander_name deck_list).1.map
      (·.quantity)).sum) < 99 := by
    rw [hsum]
    omega
  simp only [create_commander_deck, if_neg hne]
  refine ⟨_, rfl, ?_, ?_, ?_, ?_⟩
  · exact hcards
  · exact hsum
  · exact hlt
  · show round2 _ = round2 _
    rw [hloop]
    rcases hcm : (get_cards_by_name collection commander_name).isEmpty <;> simp [hcm]

/-- Claim C10 witness: the concrete 99-card list
`{"Sol Ring": 98, "atraxa": 1}` with commander "Atraxa" — validation passes,
the "atraxa" entry is excluded, the remaining cards sum to 98 < 99, and the
percentage keeps denominator 100. -/
theorem c10_witness :
    ∃ d, create_commander_deck [] "Deck" "Atraxa" atraxaDeckList = .ok d ∧
      d.cards = (atraxaDeckList.filter
          (fun e2 => decide (strLower e2.1 ≠ strLower "Atraxa"))).map
        (commander_deck_card []) ∧
      (d.cards.map (·.quantity)).sum =
        99 - ((atraxaDeckList.filter
            (fun e2 => decide (strLower e2.1 = strLower "Atraxa"))).map (·.2)).sum ∧
      (d.cards.map (·.quantity)).sum < 99 ∧
      d.ownership_percentage =
        round2 (((deck_owned_count [] "Atraxa" atraxaDeckList : ℚ) +
          (if (get_cards_by_name [] "Atraxa").isEmpty then 0 else 1)) / 100 * 100) :=
  c10_commander_in_deck_list [] "Deck" "Atraxa" atraxaDeckList (by decide)
    ("atraxa", 1) (by decide) (by decide) (by decide)

end MtgAgent
